import Mathlib

/-!
Verification development for the SSP projection / sensitivity-map module
(`mne/proj.py`).  The Python functions `_compute_cov_epochs`, `_compute_proj`
and `sensitivity_map` are shallowly embedded below.  External collaborators
(`pick_types` / `pick_types_forward`, `make_projector`,
`make_eeg_average_ref_proj`, `scipy.linalg.svd`, the parallel executor) are
not part of this module; they are modelled as explicit function parameters
consumed exactly where the source consumes them.
-/

namespace Mne

/-! ## Data model -/

/-- Channel metadata object (`info`).  Only the fields this module touches. -/
structure Info where
  ch_names : List String
  bads : List String
deriving Repr

/-- Payload of a projection vector (`proj['data']` dictionary in the source). -/
structure ProjData where
  col_names : List String
  row_names : Option (List String)
  data : List (List ℝ)
  nrow : Nat
  ncol : Nat

/-- A projection vector record (`mne.fiff.proj.Projection`). -/
structure Projection where
  active : Bool
  data : ProjData
  desc : String
  kind : Nat

/-- FIFF constant tagging an EEG average-reference projection item
(external `FIFF` table; the exact numeral is irrelevant, only that it
differs from the PCA kind tag `1`). -/
def FIFFV_MNE_PROJ_ITEM_EEG_AVREF : Nat := 10

/-- Forward-operator record.  `fixed_ori` holds the value of the external
predicate `is_fixed_orient(fwd)`; `surf_ori` is the `fwd['surf_ori']` flag;
`sol_data` is the gain matrix `fwd['sol']['data']` stored as a list of rows;
`sol_row_names` is `fwd['sol']['row_names']`; the two vertex lists come from
`fwd['src'][0]['vertno']` and `fwd['src'][1]['vertno']`. -/
structure Forward where
  surf_ori : Bool
  fixed_ori : Bool
  sol_data : List (List ℝ)
  sol_row_names : List String
  info : Info
  src0_vertno : List Nat
  src1_vertno : List Nat

/-- The `SourceEstimate` wrapper built at the end of `sensitivity_map`
(one scalar per source location, plus vertex ids and subject label). -/
structure SourceEstimate where
  data : List ℝ
  lh_vertno : List Nat
  rh_vertno : List Nat
  tmin : ℝ
  tstep : ℝ
  subject : String

/-- External collaborators used by `sensitivity_map`: forward restriction by
channel type, average-reference projector synthesis, projector construction
(returning the projection matrix, the number of active components and the
removed-subspace basis `U`), and the subject-label extractor. -/
structure Collab where
  pick_types_forward : Forward → String → List String → Forward
  make_eeg_average_ref_proj : Info → Projection
  make_projector : List Projection → List String → (List (List ℝ) × Nat × List (List ℝ))
  subject_from_forward : Forward → String

/-! ## List-based linear algebra helpers (`numpy` / `scipy.linalg` calls) -/

/-- Dot product of two vectors (`np.dot` on 1-d arrays). -/
def dotL (a b : List ℝ) : ℝ := (List.zipWith (fun x y => x * y) a b).sum

/-- Sum of squares of a vector. -/
def sumSq (l : List ℝ) : ℝ := (l.map (fun x => x * x)).sum

/-- Euclidean norm (`linalg.norm`). -/
noncomputable def vnorm (l : List ℝ) : ℝ := Real.sqrt (sumSq l)

/-- Column `j` of a row-major matrix, with missing entries read as `0`. -/
def colL (m : List (List ℝ)) (j : Nat) : List ℝ := m.map (fun r => r.getD j 0)

/-- Matrix · vector product (`np.dot(M, v)`). -/
def matVec (m : List (List ℝ)) (v : List ℝ) : List ℝ := m.map (fun r => dotL r v)

/-- Row-vector · matrix product (`np.dot(v, M)`). -/
def vecMat (v : List ℝ) (m : List (List ℝ)) : List ℝ :=
  (List.range ((m.headD []).length)).map (fun j => dotL v (colL m j))

/-- Matrix · matrix product (`np.dot(A, B)`). -/
def matMul (a b : List (List ℝ)) : List (List ℝ) :=
  a.map (fun r => (List.range ((b.headD []).length)).map (fun j => dotL r (colL b j)))

/-- Principal submatrix `data[ind][:, ind]`. -/
def subm (data : List (List ℝ)) (ind : List Nat) : List (List ℝ) :=
  ind.map (fun i => ind.map (fun j => (data.getD i []).getD j 0))

/-- Maximum of a list of reals (`np.max`), `0` on the empty list (the source
never reaches the empty case without raising first). -/
def listMax0 : List ℝ → ℝ
  | [] => 0
  | x :: xs => xs.foldl max x

/-! ## Covariance accumulator (`_compute_cov_epochs`) -/

/-- Modelled from the spec: the external `_check_n_samples` collaborator
(imported from `mne.cov`, not part of this module) fails with a
"too few samples" error when the total sample count does not exceed the
channel count, and succeeds otherwise. -/
def check_n_samples (n_samples n_chan : Nat) : Except String Unit :=
  if n_samples ≤ n_chan then Except.error "Too few samples" else Except.ok ()

/-- Embedding of `_compute_cov_epochs`.  Epochs are segment matrices of one
common shape (`c` channels × `s` samples).  The parallel executor is an
external collaborator whose contract is an ordered map, so the per-segment
outer products `np.dot(e, e.T)` are `List.map` here; the contributions are
then summed (`data = sum(data)`). -/
def compute_cov_epochs {c s : Nat} (epochs : List (Matrix (Fin c) (Fin s) ℚ)) :
    Except String (Matrix (Fin c) (Fin c) ℚ) :=
  let data := epochs.map (fun e => e * e.transpose)
  let n_epochs := data.length
  if n_epochs = 0 then Except.error "No good epochs found"
  else
    match check_n_samples (s * n_epochs) c with
    | Except.error msg => Except.error msg
    | Except.ok _ => Except.ok data.sum

/-- Extract the accumulated covariance from a successful run (`0` matrix on
the error branch; used only under an `isOk` hypothesis). -/
def covOf {c : Nat} (e : Except String (Matrix (Fin c) (Fin c) ℚ)) :
    Matrix (Fin c) (Fin c) ℚ :=
  match e with
  | Except.ok m => m
  | Except.error _ => 0

/-! ## Projection basis estimator (`_compute_proj`) -/

/-- Python `"%02d" % n` for the 1-based rank indices used here. -/
def fmt2 (n : Nat) : String := if n < 10 then "0" ++ toString n else toString n

/-- Descriptor string `"%s-%s-PCA-%02d" % (desc, desc_prefix, k + 1)`. -/
def descStr (lab pre : String) (k : Nat) : String :=
  lab ++ "-" ++ pre ++ "-PCA-" ++ fmt2 (k + 1)

/-- One emitted projection record (the loop body at lines 88–93 of the
source): a 1-row matrix holding the singular vector `u`, scoped to the
group's channel names, inactive, kind tag `1`. -/
def mkProj (names : List String) (lab pre : String) (k : Nat) (u : List ℝ) : Projection :=
  { active := false
    data := { col_names := names, row_names := none, data := [u], nrow := 1, ncol := u.length }
    desc := descStr lab pre k
    kind := 1 }

/-- The `for k, u in enumerate(U.T)` loop: emit one record per retained
singular vector, rank counter starting at `k0`. -/
def emitVecs (names : List String) (lab pre : String) (k0 : Nat) :
    List (List ℝ) → List Projection
  | [] => []
  | u :: rest => mkProj names lab pre k0 u :: emitVecs names lab pre (k0 + 1) rest

/-- Log lines (`logger.info("Adding projection: %s")`) for one group. -/
def emitLogs (lab pre : String) (k0 : Nat) : List (List ℝ) → List String
  | [] => []
  | _ :: rest => ("Adding projection: " ++ descStr lab pre k0) :: emitLogs lab pre (k0 + 1) rest

/-- One iteration of the per-group loop of `_compute_proj`: skip when the
(already clamped) rank is `0`, otherwise extract the principal submatrix for
the group, take the `n` leading left singular vectors delivered by the
external SVD (`linalg.svd(data_ind)[0][:, :n]`, supplied as `svdFn` returning
the list of left-singular columns), and emit one record per vector. -/
def emitGroup (svdFn : List (List ℝ) → List (List ℝ)) (data : List (List ℝ))
    (ind : List Nat) (names : List String) (lab pre : String) (n : Nat) :
    List Projection × List String :=
  if n = 0 then ([], [])
  else
    let ucols := (svdFn (subm data ind)).take n
    (emitVecs names lab pre 0 ucols, emitLogs lab pre 0 ucols)

/-- Rank clamping for an empty group (lines 63–71): a positive requested
rank on a group with no surviving channels is forced to `0` and a diagnostic
is logged; never an error. -/
def clampRank (n : Nat) (ind : List Nat) (msg : String) : Nat × List String :=
  if 0 < n ∧ ind = [] then (0, [msg]) else (n, [])

/-- Diagnostic message for an empty gradiometer group (line 64). -/
def msgGrad : String := "No gradiometers found. Forcing n_grad to 0"

/-- Diagnostic message for an empty magnetometer group (line 67). -/
def msgMag : String := "No magnetometers found. Forcing n_mag to 0"

/-- Diagnostic message for an empty EEG group (line 70). -/
def msgEeg : String := "No EEG channels found. Forcing n_eeg to 0"

/-- The gradiometer iteration of the `_compute_proj` loop, rank already
clamped. -/
def gradPart (svdFn : List (List ℝ) → List (List ℝ)) (data : List (List ℝ))
    (grad_ind : List Nat) (ch_names : List String) (pre : String) (n_grad : Nat) :
    List Projection × List String :=
  emitGroup svdFn data grad_ind (grad_ind.map (fun k => ch_names.getD k "")) "planar" pre
    (clampRank n_grad grad_ind msgGrad).1

/-- The magnetometer iteration of the `_compute_proj` loop, rank already
clamped. -/
def magPart (svdFn : List (List ℝ) → List (List ℝ)) (data : List (List ℝ))
    (mag_ind : List Nat) (ch_names : List String) (pre : String) (n_mag : Nat) :
    List Projection × List String :=
  emitGroup svdFn data mag_ind (mag_ind.map (fun k => ch_names.getD k "")) "axial" pre
    (clampRank n_mag mag_ind msgMag).1

/-- The EEG iteration of the `_compute_proj` loop, rank already clamped. -/
def eegPart (svdFn : List (List ℝ) → List (List ℝ)) (data : List (List ℝ))
    (eeg_ind : List Nat) (ch_names : List String) (pre : String) (n_eeg : Nat) :
    List Projection × List String :=
  emitGroup svdFn data eeg_ind (eeg_ind.map (fun k => ch_names.getD k "")) "eeg" pre
    (clampRank n_eeg eeg_ind msgEeg).1

/-- Embedding of `_compute_proj`.  The channel groups `grad_ind`, `mag_ind`,
`eeg_ind` are the outputs of the external `pick_types` collaborator (bad
channels already excluded); `ch_names` is `info['ch_names']`.  Returns the
emitted projection records in group-processing order (grad, mag, eeg)
together with the log lines. -/
def compute_proj (svdFn : List (List ℝ) → List (List ℝ)) (data : List (List ℝ))
    (grad_ind mag_ind eeg_ind : List Nat) (ch_names : List String)
    (n_grad n_mag n_eeg : Nat) (pre : String) : List Projection × List String :=
  let pg := gradPart svdFn data grad_ind ch_names pre n_grad
  let pm := magPart svdFn data mag_ind ch_names pre n_mag
  let pe := eegPart svdFn data eeg_ind ch_names pre n_eeg
  (pg.1 ++ pm.1 ++ pe.1,
    (clampRank n_grad grad_ind msgGrad).2 ++ (clampRank n_mag mag_ind msgMag).2 ++
      (clampRank n_eeg eeg_ind msgEeg).2 ++ pg.2 ++ pm.2 ++ pe.2)

/-! ## Sensitivity map computer (`sensitivity_map`) -/

/-- The 3-column sub-gain `gg = gain[:, 3 * k:3 * (k + 1)]` for location `k`,
as a matrix. -/
noncomputable def blockMat (gain : List (List ℝ)) (k : Nat) :
    Matrix (Fin gain.length) (Fin 3) ℝ :=
  Matrix.of fun i j => (gain.getD i.1 []).getD (3 * k + j.1) 0

/-- Largest singular value `s[0]` of the sub-gain at location `k`
(`linalg.svd(gg, compute_uv=False)` returns the singular values in
descending order, so `s[0]` is the `ℓ²` operator norm of `gg`). -/
noncomputable def sval0 (gain : List (List ℝ)) (k : Nat) : ℝ :=
  ‖LinearMap.toContinuousLinearMap (Matrix.toEuclideanLin (blockMat gain k))‖

/-- Per-location metric (the body of the `for k in xrange(n_locations)` loop,
lines 321–346): `gz` is the norm of the normal component `gg[:, 2]`, i.e. of
gain column `3 * k + 2`. -/
noncomputable def locVal (mode : String) (gain proj U : List (List ℝ)) (k : Nat) : ℝ :=
  let gz := vnorm (colL gain (3 * k + 2))
  if mode == "free" then sval0 gain k
  else if mode == "fixed" then gz
  else if mode == "ratio" then gz / sval0 gain k
  else if mode == "radiality" then 1 - gz / sval0 gain k
  else if mode == "angle" then vnorm (vecMat (colL gain (3 * k + 2)) U) / gz
  else if mode == "remaining" then vnorm (matVec proj (colL gain (3 * k + 2))) / gz
  else 1 - vnorm (matVec proj (colL gain (3 * k + 2))) / gz

/-- Validation of the sensor-type string (line 276). -/
def chtOk (s : String) : Bool := ["eeg", "grad", "mag"].contains s

/-- Validation of the mode string (lines 279–280). -/
def modeOk (m : String) : Bool :=
  ["free", "fixed", "ratio", "radiality", "angle", "remaining", "dampening"].contains m

/-- The three modes that leave the gain un-projected (lines 310, 314). -/
def inAngleFam (m : String) : Bool := ["angle", "remaining", "dampening"].contains m

/-- The EEG average-reference handling (lines 297–303), faithful to the
source's control flow: `eeg_ave` is assigned only inside the inner `if`, yet
line 303 reads it unconditionally, so when the supplied list already contains
an average-reference projector the read raises Python's
`UnboundLocalError`. -/
def eegStep (C : Collab) (fwd2 : Forward) (projs : Option (List Projection))
    (cht : String) : Except String (Option (List Projection)) :=
  if cht == "eeg" then
    match projs with
    | none => Except.ok (some [C.make_eeg_average_ref_proj fwd2.info])
    | some ps =>
        if ps.any (fun p => p.kind == FIFFV_MNE_PROJ_ITEM_EEG_AVREF) then
          Except.error "UnboundLocalError: local variable eeg_ave referenced before assignment"
        else Except.ok (some (ps ++ [C.make_eeg_average_ref_proj fwd2.info]))
  else Except.ok projs

/-- Validation, forward restriction, EEG average-reference handling and
projector construction of `sensitivity_map` (lines 276–315).  On success
returns the (possibly projected) gain together with the projector matrix and
removed-subspace basis (`[]` dummies when no projectors are present — on
those paths the loop never reads them, matching the source where `proj` and
`U` are simply unbound). -/
noncomputable def sens_prep (C : Collab) (fwd : Forward)
    (projs : Option (List Projection)) (cht mode : String) (ex : List String) :
    Except String (Forward × List (List ℝ) × List (List ℝ) × List (List ℝ)) :=
  if chtOk cht = false then
    Except.error ("ch_type should be eeg, mag or grad (got " ++ cht ++ ")")
  else if modeOk mode = false then
    Except.error ("Unknown mode type (got " ++ mode ++ ")")
  else if fwd.surf_ori = false then
    Except.error "fwd should be surface oriented"
  else if fwd.fixed_ori = true then
    Except.error "fwd should not have fixed orientation"
  else
    let fwd2 := C.pick_types_forward fwd cht ex
    let gain := fwd2.sol_data
    match eegStep C fwd2 projs cht with
    | Except.error e => Except.error e
    | Except.ok none =>
        if inAngleFam mode = true then
          Except.error ("No projectors used, cannot compute " ++ mode)
        else Except.ok (fwd2, gain, [], [])
    | Except.ok (some ps) =>
        let pu := C.make_projector ps fwd2.sol_row_names
        let gain2 := if inAngleFam mode = false then matMul pu.1 gain else gain
        Except.ok (fwd2, gain2, pu.1, pu.2.2)

/-- The restricted forward together with the raw (pre-normalization)
per-location metric values. -/
noncomputable def sens_raw (C : Collab) (fwd : Forward)
    (projs : Option (List Projection)) (cht mode : String) (ex : List String) :
    Except String (Forward × List ℝ) :=
  match sens_prep C fwd projs cht mode ex with
  | Except.error e => Except.error e
  | Except.ok (f2, gain, proj, U) =>
      let n_locations := (gain.headD []).length / 3
      Except.ok (f2, (List.range n_locations).map (locVal mode gain proj U))

/-- Embedding of `sensitivity_map`: raw per-location values, then — for the
`fixed`/`free` modes only — rescaling by the maximum (`np.max` raises on an
empty array), then the `SourceEstimate` wrapper. -/
noncomputable def sensitivity_map (C : Collab) (fwd : Forward)
    (projs : Option (List Projection)) (cht mode : String) (ex : List String) :
    Except String SourceEstimate :=
  match sens_raw C fwd projs cht mode ex with
  | Except.error e => Except.error e
  | Except.ok (f2, raw) =>
      if mode == "fixed" || mode == "free" then
        match raw with
        | [] => Except.error "zero-size array to reduction operation maximum"
        | _ :: _ =>
            Except.ok
              { data := raw.map (fun x => x / listMax0 raw)
                lh_vertno := f2.src0_vertno, rh_vertno := f2.src1_vertno
                tmin := 0, tstep := 1, subject := C.subject_from_forward f2 }
      else
        Except.ok
          { data := raw
            lh_vertno := f2.src0_vertno, rh_vertno := f2.src1_vertno
            tmin := 0, tstep := 1, subject := C.subject_from_forward f2 }

/-- Per-location values of a finished call (empty on the error branch). -/
def stcData (e : Except String SourceEstimate) : List ℝ :=
  match e with
  | Except.ok s => s.data
  | Except.error _ => []

/-- Raw values of a call (empty on the error branch). -/
def rawOf (e : Except String (Forward × List ℝ)) : List ℝ :=
  match e with
  | Except.ok fr => fr.2
  | Except.error _ => []

/-! ## Heap model of the projection-list handling

To state the frame effect on the caller-supplied projection list (whether
`sensitivity_map` ever mutates the list object it is handed) the fragment at
lines 297–303 is re-embedded with Python's list-object semantics made
explicit: a heap of list cells, references as indices, `[x]` display and
list `+` each allocating a fresh cell, and plain assignment rebinding the
local name only. -/

/-- A heap of Python list objects holding projection vectors. -/
structure PyHeap where
  cells : List (List Projection)

/-- Allocate a fresh list object; returns the new heap and the reference. -/
def halloc (h : PyHeap) (v : List Projection) : PyHeap × Nat :=
  (⟨h.cells ++ [v]⟩, h.cells.length)

/-- Dereference a list object (empty list for a dangling reference). -/
def hget (h : PyHeap) (r : Nat) : List Projection := h.cells.getD r []

/-- Heap-level embedding of the EEG average-reference fragment
(lines 297–303): `eeg_ave = [make_eeg_average_ref_proj(fwd['info'])]`
allocates a fresh singleton, `projs + eeg_ave` allocates a fresh
concatenation, and `projs = ...` rebinds the local name.  Returns the heap
after the fragment and the reference now bound to the local `projs` (the
error branch is the source's `UnboundLocalError` slip). -/
def eeg_step_heap (C : Collab) (info : Info) (cht : String) (h : PyHeap)
    (projsRef : Option Nat) : Except String (PyHeap × Option Nat) :=
  if cht == "eeg" then
    match projsRef with
    | none =>
        let (h1, rAve) := halloc h [C.make_eeg_average_ref_proj info]
        Except.ok (h1, some rAve)
    | some r =>
        if (hget h r).any (fun p => p.kind == FIFFV_MNE_PROJ_ITEM_EEG_AVREF) then
          Except.error "UnboundLocalError: local variable eeg_ave referenced before assignment"
        else
          let (h1, rAve) := halloc h [C.make_eeg_average_ref_proj info]
          let (h2, rNew) := halloc h1 (hget h1 r ++ hget h1 rAve)
          Except.ok (h2, some rNew)
  else Except.ok (h, projsRef)

/-! ## Theorems -/

/-- C8: a covariance accumulation over zero usable segments fails with the
no-usable-data error (`RuntimeError('No good epochs found')`) and no partial
covariance matrix is returned. -/
theorem cov_zero_segments_error (c s : Nat) :
    compute_cov_epochs (c := c) (s := s) [] = Except.error "No good epochs found" := rfl

/-- C5: a successful covariance accumulation returns exactly the sum of the
per-segment outer products `X · Xᵀ`, and every permutation of the segments
yields the identical result. -/
theorem cov_accumulate_perm {c s : Nat} (l l' : List (Matrix (Fin c) (Fin s) ℚ))
    (hperm : l.Perm l') (hok : (compute_cov_epochs l).isOk = true) :
    covOf (compute_cov_epochs l) = (l.map (fun X => X * X.transpose)).sum ∧
      compute_cov_epochs l' = compute_cov_epochs l := by
  have hlen : l'.length = l.length := hperm.symm.length_eq
  have hsum : (l'.map (fun X => X * X.transpose)).sum = (l.map (fun X => X * X.transpose)).sum :=
    (hperm.map (fun X => X * X.transpose)).symm.sum_eq
  by_cases h0 : l.length = 0
  · rw [List.length_eq_zero] at h0
    subst h0
    simp [compute_cov_epochs, Except.isOk, Except.toBool] at hok
  · cases hcs : check_n_samples (s * l.length) c with
    | error msg =>
        exfalso
        unfold compute_cov_epochs at hok
        simp only [List.length_map, h0, if_false, hcs, Except.isOk, Except.toBool] at hok
        exact Bool.false_ne_true hok
    | ok u =>
        constructor
        · unfold compute_cov_epochs covOf
          simp only [List.length_map, h0, if_false, hcs]
        · unfold compute_cov_epochs
          simp only [List.length_map, hlen, h0, if_false, hcs, hsum]

/-- Concrete segments for the C5 witness. -/
def segA : Matrix (Fin 1) (Fin 2) ℚ := Matrix.of fun _ j => if j = 0 then 1 else 2

/-- Second concrete segment for the C5 witness. -/
def segB : Matrix (Fin 1) (Fin 2) ℚ := Matrix.of fun _ j => if j = 0 then 3 else 4

/-- Witness for C5 at two concrete 1 × 2 segments. -/
theorem cov_accumulate_perm_witness :
    ([segA, segB].Perm [segB, segA] ∧ (compute_cov_epochs [segA, segB]).isOk = true) ∧
      (covOf (compute_cov_epochs [segA, segB]) =
          ([segA, segB].map (fun X => X * X.transpose)).sum ∧
        compute_cov_epochs [segB, segA] = compute_cov_epochs [segA, segB]) :=
  ⟨⟨List.Perm.swap segB segA [], rfl⟩,
    cov_accumulate_perm [segA, segB] [segB, segA] (List.Perm.swap segB segA []) rfl⟩

/-! ### Concrete fixtures for witnesses and counterexamples -/

/-- Concrete collaborators: restriction is the identity, the synthesized
average-reference projector carries the `FIFFV_MNE_PROJ_ITEM_EEG_AVREF`
kind tag, and `make_projector` returns a 2 × 2 identity with an empty
removed-subspace basis. -/
noncomputable def collab0 : Collab :=
  { pick_types_forward := fun f _ _ => f
    make_eeg_average_ref_proj := fun _ =>
      { active := false
        data := { col_names := [], row_names := none, data := [[]], nrow := 1, ncol := 0 }
        desc := "average eeg reference"
        kind := FIFFV_MNE_PROJ_ITEM_EEG_AVREF }
    make_projector := fun _ _ => ([[1, 0], [0, 1]], 0, [])
    subject_from_forward := fun _ => "sample" }

/-- Concrete surface-oriented, free-orientation forward model with two
sensors and one source location whose normal-component gain column is
`(3, 4)`. -/
noncomputable def fwd0 : Forward :=
  { surf_ori := true, fixed_ori := false
    sol_data := [[0, 0, 3], [0, 0, 4]]
    sol_row_names := ["MEG 001", "MEG 002"]
    info := { ch_names := ["MEG 001", "MEG 002"], bads := [] }
    src0_vertno := [0], src1_vertno := [1] }

/-- A caller-supplied average-reference projection vector. -/
noncomputable def avgRefProj : Projection :=
  { active := false
    data := { col_names := ["EEG 001"], row_names := none, data := [[1]], nrow := 1, ncol := 1 }
    desc := "average eeg reference"
    kind := FIFFV_MNE_PROJ_ITEM_EEG_AVREF }

/-- C2: when the sensor type is EEG and the supplied projection list already
contains an average-reference projector, the source never assigns the local
`eeg_ave` yet still reads it at line 303, so the call crashes with Python's
`UnboundLocalError` instead of proceeding with the unchanged list. -/
theorem eeg_avref_unbound_local :
    sensitivity_map collab0 fwd0 (some [avgRefProj]) "eeg" "fixed" [] =
      Except.error "UnboundLocalError: local variable eeg_ave referenced before assignment" :=
  rfl

/-- C1 counterexample: a supplied projection list with zero vectors does not
raise — the call with mode `angle` and sensor type `grad` succeeds — and with
sensor type `eeg` and no list at all an average-reference projector is
synthesized and the `angle` call succeeds as well, both contradicting the
claim that every such call fails. -/
theorem proj_required_counterexample :
    (sensitivity_map collab0 fwd0 (some []) "grad" "angle" []).isOk = true ∧
      (sensitivity_map collab0 fwd0 none "eeg" "angle" []).isOk = true :=
  ⟨rfl, rfl⟩

/-- C1 (amended): the validation error for modes `angle`, `remaining`,
`dampening` is raised exactly when no projection list at all is supplied and
the sensor type is `grad` or `mag`; an EEG call synthesizes an
average-reference projector instead, and a supplied empty list proceeds. -/
theorem proj_required_when_none_non_eeg (C : Collab) (fwd : Forward)
    (cht mode : String) (ex : List String)
    (hcht : cht = "grad" ∨ cht = "mag")
    (hmode : mode = "angle" ∨ mode = "remaining" ∨ mode = "dampening")
    (hsurf : fwd.surf_ori = true) (hfix : fwd.fixed_ori = false) :
    sensitivity_map C fwd none cht mode ex =
      Except.error ("No projectors used, cannot compute " ++ mode) := by
  rcases hcht with h | h <;> subst h <;> rcases hmode with h | h | h <;> subst h <;>
    simp [sensitivity_map, sens_raw, sens_prep, eegStep, chtOk, modeOk, inAngleFam,
      hsurf, hfix]

/-- Witness for the amended C1 at a concrete forward model. -/
theorem proj_required_when_none_non_eeg_witness :
    (("grad" = "grad" ∨ "grad" = "mag") ∧
        ("angle" = "angle" ∨ "angle" = "remaining" ∨ "angle" = "dampening") ∧
        fwd0.surf_ori = true ∧ fwd0.fixed_ori = false) ∧
      sensitivity_map collab0 fwd0 none "grad" "angle" [] =
        Except.error ("No projectors used, cannot compute " ++ "angle") :=
  ⟨⟨Or.inl rfl, Or.inl rfl, rfl, rfl⟩,
    proj_required_when_none_non_eeg collab0 fwd0 "grad" "angle" []
      (Or.inl rfl) (Or.inl rfl) rfl rfl⟩

/-- C10: the caller-supplied projection list object is never mutated by the
average-reference handling: every path of the fragment either leaves the
heap untouched or only allocates fresh cells (`[x]` and list `+` both
allocate), so the caller's cell holds exactly the vectors it held before. -/
theorem caller_projs_never_mutated (C : Collab) (info : Info) (cht : String)
    (h : PyHeap) (r : Nat) (res : PyHeap × Option Nat)
    (hr : r < h.cells.length)
    (hstep : eeg_step_heap C info cht h (some r) = Except.ok res) :
    hget res.1 r = hget h r := by
  unfold eeg_step_heap at hstep
  cases hc : cht == "eeg" with
  | false =>
      rw [hc] at hstep
      simp only [Bool.false_eq_true, if_false] at hstep
      cases hstep
      rfl
  | true =>
      rw [hc] at hstep
      simp only [if_true] at hstep
      by_cases ha : (hget h r).any (fun p => p.kind == FIFFV_MNE_PROJ_ITEM_EEG_AVREF) = true
      · rw [if_pos ha] at hstep
        cases hstep
      · rw [if_neg ha] at hstep
        cases hstep
        show (PyHeap.mk ((h.cells ++ _) ++ _)).cells.getD r [] = h.cells.getD r []
        rw [List.getD_append _ _ _ _ (by simpa using Nat.lt_succ_of_lt hr),
          List.getD_append _ _ _ _ hr]

/-- Heap fixture: the caller's list holds one non-average-reference vector. -/
noncomputable def projX : Projection := mkProj ["EEG 001"] "eeg" "w" 0 [1]

/-- The heap after the fragment runs on `⟨[[projX]]⟩` with sensor type
`eeg`: the synthesized singleton and the fresh concatenation are appended,
the original cell is untouched. -/
noncomputable def heapRes : PyHeap × Option Nat :=
  (⟨[[projX], [collab0.make_eeg_average_ref_proj fwd0.info],
      [projX, collab0.make_eeg_average_ref_proj fwd0.info]]⟩, some 2)

/-- Witness for C10 at a concrete heap. -/
theorem caller_projs_never_mutated_witness :
    (0 < (PyHeap.mk [[projX]]).cells.length ∧
        eeg_step_heap collab0 fwd0.info "eeg" ⟨[[projX]]⟩ (some 0) = Except.ok heapRes) ∧
      hget heapRes.1 0 = hget ⟨[[projX]]⟩ 0 :=
  ⟨⟨Nat.one_pos, rfl⟩,
    caller_projs_never_mutated collab0 fwd0.info "eeg" ⟨[[projX]]⟩ 0 heapRes
      Nat.one_pos rfl⟩

/-- C7: for any of the three groups (grad, mag or eeg), a positive requested
rank on that group when it has zero surviving channels is not an error: the
rank is forced to zero (the emitted projections equal those of a call
requesting rank zero for that group), the group's diagnostic is logged, and
the other two groups are processed unchanged. -/
theorem empty_group_clamps (svdFn : List (List ℝ) → List (List ℝ))
    (data : List (List ℝ)) (grad_ind mag_ind eeg_ind : List Nat)
    (ch_names : List String) (n_grad n_mag n_eeg : Nat) (pre : String)
    (grp : String) (hgrp : grp = "grad" ∨ grp = "mag" ∨ grp = "eeg")
    (hind : (if grp = "grad" then grad_ind else if grp = "mag" then mag_ind
      else eeg_ind) = [])
    (hpos : 0 < (if grp = "grad" then n_grad else if grp = "mag" then n_mag
      else n_eeg)) :
    (compute_proj svdFn data grad_ind mag_ind eeg_ind ch_names n_grad n_mag n_eeg pre).1 =
        (compute_proj svdFn data grad_ind mag_ind eeg_ind ch_names
          (if grp = "grad" then 0 else n_grad) (if grp = "mag" then 0 else n_mag)
          (if grp = "eeg" then 0 else n_eeg) pre).1 ∧
      (if grp = "grad" then msgGrad else if grp = "mag" then msgMag else msgEeg) ∈
        (compute_proj svdFn data grad_ind mag_ind eeg_ind ch_names n_grad n_mag n_eeg pre).2 ∧
      (compute_proj svdFn data grad_ind mag_ind eeg_ind ch_names n_grad n_mag n_eeg pre).1 =
        (if grp = "grad" then
          (magPart svdFn data mag_ind ch_names pre n_mag).1 ++
            (eegPart svdFn data eeg_ind ch_names pre n_eeg).1
        else if grp = "mag" then
          (gradPart svdFn data grad_ind ch_names pre n_grad).1 ++
            (eegPart svdFn data eeg_ind ch_names pre n_eeg).1
        else
          (gradPart svdFn data grad_ind ch_names pre n_grad).1 ++
            (magPart svdFn data mag_ind ch_names pre n_mag).1) := by
  rcases hgrp with h | h | h <;> subst h
  · rw [if_pos rfl] at hind hpos
    subst hind
    have hc : clampRank n_grad [] msgGrad = (0, [msgGrad]) := by
      unfold clampRank
      rw [if_pos ⟨hpos, rfl⟩]
    have hc0 : clampRank 0 [] msgGrad = (0, []) := by
      unfold clampRank
      rw [if_neg (by simp)]
    refine ⟨?_, ?_, ?_⟩ <;>
      simp [compute_proj, gradPart, hc, hc0, emitGroup]
  · rw [if_neg (by decide), if_pos rfl] at hind hpos
    subst hind
    have hc : clampRank n_mag [] msgMag = (0, [msgMag]) := by
      unfold clampRank
      rw [if_pos ⟨hpos, rfl⟩]
    have hc0 : clampRank 0 [] msgMag = (0, []) := by
      unfold clampRank
      rw [if_neg (by simp)]
    refine ⟨?_, ?_, ?_⟩ <;>
      simp [compute_proj, magPart, hc, hc0, emitGroup]
  · rw [if_neg (by decide), if_neg (by decide)] at hind hpos
    subst hind
    have hc : clampRank n_eeg [] msgEeg = (0, [msgEeg]) := by
      unfold clampRank
      rw [if_pos ⟨hpos, rfl⟩]
    have hc0 : clampRank 0 [] msgEeg = (0, []) := by
      unfold clampRank
      rw [if_neg (by simp)]
    refine ⟨?_, ?_, ?_⟩ <;>
      simp [compute_proj, eegPart, hc, hc0, emitGroup]

/-- Witness for C7: rank 2 requested for the gradiometer group, no
gradiometer channels, one magnetometer channel (the theorem is universal
over the three groups; this exercises its hypotheses at `grp = "grad"`). -/
theorem empty_group_clamps_witness :
    (("grad" = "grad" ∨ "grad" = "mag" ∨ "grad" = "eeg") ∧
        (if "grad" = "grad" then ([] : List Nat) else if "grad" = "mag" then [0]
          else []) = [] ∧
        0 < (if "grad" = "grad" then 2 else if "grad" = "mag" then 1 else 0)) ∧
      ((compute_proj (fun _ => [[1]]) [[4]] [] [0] [] ["MEG 0111"] 2 1 0 "w").1 =
          (compute_proj (fun _ => [[1]]) [[4]] [] [0] [] ["MEG 0111"]
            (if "grad" = "grad" then 0 else 2) (if "grad" = "mag" then 0 else 1)
            (if "grad" = "eeg" then 0 else 0) "w").1 ∧
        (if "grad" = "grad" then msgGrad else if "grad" = "mag" then msgMag else msgEeg) ∈
          (compute_proj (fun _ => [[1]]) [[4]] [] [0] [] ["MEG 0111"] 2 1 0 "w").2 ∧
        (compute_proj (fun _ => [[1]]) [[4]] [] [0] [] ["MEG 0111"] 2 1 0 "w").1 =
          (if "grad" = "grad" then
            (magPart (fun _ => [[1]]) [[4]] [0] ["MEG 0111"] "w" 1).1 ++
              (eegPart (fun _ => [[1]]) [[4]] [] ["MEG 0111"] "w" 0).1
          else if "grad" = "mag" then
            (gradPart (fun _ => [[1]]) [[4]] [] ["MEG 0111"] "w" 2).1 ++
              (eegPart (fun _ => [[1]]) [[4]] [] ["MEG 0111"] "w" 0).1
          else
            (gradPart (fun _ => [[1]]) [[4]] [] ["MEG 0111"] "w" 2).1 ++
              (magPart (fun _ => [[1]]) [[4]] [0] ["MEG 0111"] "w" 1).1)) :=
  ⟨⟨Or.inl rfl, rfl, by decide⟩,
    empty_group_clamps (fun _ => [[1]]) [[4]] [] [0] [] ["MEG 0111"] 2 1 0 "w"
      "grad" (Or.inl rfl) rfl (by decide)⟩

/-! ### Structure of the emitted projection list (C6, C9) -/

/-- Expected (descriptor, active-flag) pairs for one group: ranks ascending,
1-based inside `descStr`, never active. -/
def descList (lab pre : String) (n : Nat) : List (String × Bool) :=
  (List.range n).map (fun k => (descStr lab pre k, false))

/-- Number of vectors a group emits: none for an empty group (rank clamped),
otherwise the requested rank capped by the group size. -/
def cntOf (n : Nat) (ind : List Nat) : Nat := if ind = [] then 0 else min n ind.length

/-- Descriptors and active flags of the records emitted by the enumeration
loop, rank counter starting at `k0`. -/
theorem emitVecs_desc (names : List String) (lab pre : String)
    (ucols : List (List ℝ)) (k0 : Nat) :
    (emitVecs names lab pre k0 ucols).map (fun p => (p.desc, p.active)) =
      (List.range ucols.length).map (fun i => (descStr lab pre (k0 + i), false)) := by
  induction ucols generalizing k0 with
  | nil => simp [emitVecs]
  | cons u rest ih =>
      rw [emitVecs, List.map_cons, List.length_cons, List.range_succ_eq_map,
        List.map_cons, List.map_map, ih]
      refine congrArg₂ _ (by simp [mkProj]) ?_
      refine List.map_congr_left fun i _ => ?_
      simp [Nat.add_assoc, Nat.add_comm 1 i]

/-- The singular vectors stored in the emitted records are exactly the
columns handed to the loop. -/
theorem emitVecs_vecs (names : List String) (lab pre : String)
    (ucols : List (List ℝ)) (k0 : Nat) :
    (emitVecs names lab pre k0 ucols).map (fun p => p.data.data.headD []) = ucols := by
  induction ucols generalizing k0 with
  | nil => rfl
  | cons u rest ih =>
      rw [emitVecs, List.map_cons, ih]
      rfl

/-- Descriptor/flag structure of one group after rank clamping, under the
SVD contract that `U` is square (one left-singular column per channel). -/
theorem emitGroup_clamped_desc (svdFn : List (List ℝ) → List (List ℝ))
    (data : List (List ℝ)) (ind : List Nat) (names : List String)
    (lab pre msg : String) (n : Nat)
    (hU : (svdFn (subm data ind)).length = ind.length) :
    (emitGroup svdFn data ind names lab pre (clampRank n ind msg).1).1.map
        (fun p => (p.desc, p.active)) = descList lab pre (cntOf n ind) := by
  by_cases hind : ind = []
  · subst hind
    by_cases hn : n = 0
    · subst hn
      simp [clampRank, emitGroup, cntOf, descList]
    · simp [clampRank, Nat.pos_of_ne_zero hn, emitGroup, cntOf, descList]
  · have hcl : (clampRank n ind msg).1 = n := by
      unfold clampRank
      rw [if_neg (by simp [hind])]
    rw [hcl]
    by_cases hn : n = 0
    · subst hn
      simp [emitGroup, cntOf, hind, descList]
    · unfold emitGroup
      rw [if_neg hn]
      simp only [emitVecs_desc, List.length_take, hU, cntOf, if_neg hind, descList]
      exact List.map_congr_left fun i _ => by simp

/-- C6 counterexample: with one gradiometer channel and rank 1, the emitted
descriptor is labelled `planar`, not with the group name `grad`. -/
theorem desc_label_counterexample :
    (compute_proj (fun _ => [[1]]) [[4]] [0] [] [] ["MEG 0113"] 1 0 0 "p").1.map
        (fun p => p.desc) = ["planar-p-PCA-01"] ∧
      "planar-p-PCA-01" ≠ "grad-p-PCA-01" := by
  constructor
  · rfl
  · decide

/-- C6 (amended): the estimated basis is the concatenation of the per-group
vectors in group-processing order grad, mag, eeg, rank ascending and 1-based
within each group, every vector inactive, and each descriptor is
`"{label}-{prefix}-PCA-{rank:02d}"` where the label is `planar` for the
gradiometer group, `axial` for the magnetometer group and `eeg` for the EEG
group (not the group names `grad`/`mag`). -/
theorem proj_list_structure (svdFn : List (List ℝ) → List (List ℝ))
    (data : List (List ℝ)) (grad_ind mag_ind eeg_ind : List Nat)
    (ch_names : List String) (n_grad n_mag n_eeg : Nat) (pre : String)
    (hg : (svdFn (subm data grad_ind)).length = grad_ind.length)
    (hm : (svdFn (subm data mag_ind)).length = mag_ind.length)
    (he : (svdFn (subm data eeg_ind)).length = eeg_ind.length) :
    (compute_proj svdFn data grad_ind mag_ind eeg_ind ch_names n_grad n_mag n_eeg pre).1.map
        (fun p => (p.desc, p.active)) =
      descList "planar" pre (cntOf n_grad grad_ind) ++
        descList "axial" pre (cntOf n_mag mag_ind) ++
        descList "eeg" pre (cntOf n_eeg eeg_ind) := by
  unfold compute_proj gradPart magPart eegPart
  simp only [List.map_append]
  rw [emitGroup_clamped_desc svdFn data grad_ind _ "planar" pre _ n_grad hg,
    emitGroup_clamped_desc svdFn data mag_ind _ "axial" pre _ n_mag hm,
    emitGroup_clamped_desc svdFn data eeg_ind _ "eeg" pre _ n_eeg he]

/-- Witness for the amended C6: one channel per group, one identity singular
column, requested ranks (1, 1, 0). -/
theorem proj_list_structure_witness :
    ((fun _ => [[(1 : ℝ)]] : List (List ℝ) → List (List ℝ)) (subm [[4]] [0])).length =
        [0].length ∧
      (compute_proj (fun _ => [[1]]) [[4]] [0] [0] [0] ["MEG 0113"] 1 1 0 "p").1.map
          (fun p => (p.desc, p.active)) =
        descList "planar" "p" (cntOf 1 [0]) ++ descList "axial" "p" (cntOf 1 [0]) ++
          descList "eeg" "p" (cntOf 0 [0]) :=
  ⟨rfl,
    proj_list_structure (fun _ => [[1]]) [[4]] [0] [0] [0] ["MEG 0113"] 1 1 0 "p"
      rfl rfl rfl⟩

/-- The singular-vector rows stored in a list of projection records. -/
def vecsOf (ps : List Projection) : List (List ℝ) :=
  ps.map (fun p => p.data.data.headD [])

/-- Contract of the external SVD on its left-singular columns: pairwise
orthogonal with unit self-inner-product. -/
def orthonormalCols (cols : List (List ℝ)) : Prop :=
  cols.Pairwise (fun u v => dotL u v = 0) ∧ ∀ u ∈ cols, dotL u u = 1

/-- Pairwise orthogonality plus unit Euclidean norm, as stated in the
spec. -/
def orthoNormSet (vs : List (List ℝ)) : Prop :=
  vs.Pairwise (fun u v => dotL u v = 0) ∧ ∀ u ∈ vs, vnorm u = 1

/-- Sum of squares equals the self-inner-product. -/
theorem sumSq_eq_dotL (l : List ℝ) : sumSq l = dotL l l := by
  induction l with
  | nil => rfl
  | cons x xs ih =>
      simp [sumSq, dotL, List.sum_cons] at ih ⊢

/-- Orthonormality of the emitted vectors of one (already clamped) group
iteration, from the SVD contract at the group's submatrix. -/
theorem emitGroup_ortho (svdFn : List (List ℝ) → List (List ℝ))
    (data : List (List ℝ)) (ind : List Nat) (names : List String)
    (lab pre : String) (n : Nat)
    (ho : orthonormalCols (svdFn (subm data ind))) :
    orthoNormSet (vecsOf (emitGroup svdFn data ind names lab pre n).1) := by
  unfold emitGroup
  by_cases hn : n = 0
  · subst hn
    simp [vecsOf, orthoNormSet]
  · rw [if_neg hn]
    unfold vecsOf
    rw [emitVecs_vecs]
    constructor
    · exact ho.1.sublist (List.take_sublist n _)
    · intro u hu
      have h1 : dotL u u = 1 := ho.2 u (List.take_subset n _ hu)
      unfold vnorm
      rw [sumSq_eq_dotL, h1, Real.sqrt_one]

/-- C9: under the SVD contract (orthonormal left-singular columns at each
group's principal covariance submatrix), the emitted projection vectors of
each group — grad, mag and eeg parts of the returned concatenation — are
pairwise orthogonal and of unit Euclidean norm. -/
theorem group_vectors_orthonormal (svdFn : List (List ℝ) → List (List ℝ))
    (data : List (List ℝ)) (grad_ind mag_ind eeg_ind : List Nat)
    (ch_names : List String) (n_grad n_mag n_eeg : Nat) (pre : String)
    (hgo : orthonormalCols (svdFn (subm data grad_ind)))
    (hmo : orthonormalCols (svdFn (subm data mag_ind)))
    (heo : orthonormalCols (svdFn (subm data eeg_ind))) :
    (compute_proj svdFn data grad_ind mag_ind eeg_ind ch_names n_grad n_mag n_eeg pre).1 =
        (gradPart svdFn data grad_ind ch_names pre n_grad).1 ++
          (magPart svdFn data mag_ind ch_names pre n_mag).1 ++
          (eegPart svdFn data eeg_ind ch_names pre n_eeg).1 ∧
      orthoNormSet (vecsOf (gradPart svdFn data grad_ind ch_names pre n_grad).1) ∧
      orthoNormSet (vecsOf (magPart svdFn data mag_ind ch_names pre n_mag).1) ∧
      orthoNormSet (vecsOf (eegPart svdFn data eeg_ind ch_names pre n_eeg).1) :=
  ⟨rfl,
    emitGroup_ortho svdFn data grad_ind _ "planar" pre _ hgo,
    emitGroup_ortho svdFn data mag_ind _ "axial" pre _ hmo,
    emitGroup_ortho svdFn data eeg_ind _ "eeg" pre _ heo⟩

/-- The one-column identity SVD output used by the C9 witness satisfies the
orthonormality contract. -/
theorem ortho_single : orthonormalCols [[(1 : ℝ)]] := by
  constructor
  · exact List.pairwise_singleton _ _
  · intro u hu
    rw [List.mem_singleton] at hu
    subst hu
    simp [dotL]

/-- Witness for C9 at one channel per group with the identity singular
column. -/
theorem group_vectors_orthonormal_witness :
    (orthonormalCols ((fun _ => [[(1 : ℝ)]] : List (List ℝ) → List (List ℝ))
          (subm [[4]] [0])) ∧
        orthonormalCols ((fun _ => [[(1 : ℝ)]] : List (List ℝ) → List (List ℝ))
          (subm [[4]] [1])) ∧
        orthonormalCols ((fun _ => [[(1 : ℝ)]] : List (List ℝ) → List (List ℝ))
          (subm [[4]] [2]))) ∧
      ((compute_proj (fun _ => [[(1 : ℝ)]]) [[4]] [0] [1] [2] ["MEG 0113"] 1 1 1 "w").1 =
          (gradPart (fun _ => [[(1 : ℝ)]]) [[4]] [0] ["MEG 0113"] "w" 1).1 ++
            (magPart (fun _ => [[(1 : ℝ)]]) [[4]] [1] ["MEG 0113"] "w" 1).1 ++
            (eegPart (fun _ => [[(1 : ℝ)]]) [[4]] [2] ["MEG 0113"] "w" 1).1 ∧
        orthoNormSet (vecsOf (gradPart (fun _ => [[(1 : ℝ)]]) [[4]] [0] ["MEG 0113"] "w" 1).1) ∧
        orthoNormSet (vecsOf (magPart (fun _ => [[(1 : ℝ)]]) [[4]] [1] ["MEG 0113"] "w" 1).1) ∧
        orthoNormSet (vecsOf (eegPart (fun _ => [[(1 : ℝ)]]) [[4]] [2] ["MEG 0113"] "w" 1).1)) :=
  ⟨⟨ortho_single, ortho_single, ortho_single⟩,
    group_vectors_orthonormal (fun _ => [[(1 : ℝ)]]) [[4]] [0] [1] [2] ["MEG 0113"] 1 1 1 "w"
      ortho_single ortho_single ortho_single⟩

/-! ### Complement identities between modes (C3) -/

/-- The `radiality` metric is definitionally the complement of `ratio`. -/
theorem locVal_radiality_ratio (gain proj U : List (List ℝ)) (k : Nat) :
    locVal "radiality" gain proj U k = 1 - locVal "ratio" gain proj U k := rfl

/-- The `dampening` metric is definitionally the complement of
`remaining`. -/
theorem locVal_dampening_remaining (gain proj U : List (List ℝ)) (k : Nat) :
    locVal "dampening" gain proj U k = 1 - locVal "remaining" gain proj U k := rfl

/-- Two calls that differ only in the mode string produce complementary
maps whenever the modes are valid, agree on membership in the
angle family (so the gain is projected identically), are not rescaled, and
have pointwise complementary per-location metrics. -/
theorem stcData_complement (C : Collab) (fwd : Forward)
    (projs : Option (List Projection)) (cht : String) (ex : List String)
    (m1 m2 : String) (h1 : modeOk m1 = true) (h2 : modeOk m2 = true)
    (h3 : inAngleFam m1 = inAngleFam m2)
    (h4 : (m1 == "fixed" || m1 == "free") = false)
    (h5 : (m2 == "fixed" || m2 == "free") = false)
    (hloc : ∀ gain proj U k, locVal m1 gain proj U k = 1 - locVal m2 gain proj U k) :
    stcData (sensitivity_map C fwd projs cht m1 ex) =
      (stcData (sensitivity_map C fwd projs cht m2 ex)).map (fun x => 1 - x) := by
  by_cases hcht : chtOk cht = false
  · simp [sensitivity_map, sens_raw, sens_prep, stcData, hcht]
  · by_cases hsurf : fwd.surf_ori = false
    · simp [sensitivity_map, sens_raw, sens_prep, stcData, hcht, h1, h2, hsurf]
    · by_cases hfix : fwd.fixed_ori = true
      · simp [sensitivity_map, sens_raw, sens_prep, stcData, hcht, h1, h2, hsurf, hfix]
      · cases heeg : eegStep C (C.pick_types_forward fwd cht ex) projs cht with
        | error e =>
            simp [sensitivity_map, sens_raw, sens_prep, stcData, hcht, h1, h2, hsurf, hfix,
              heeg]
        | ok o =>
            cases o with
            | none =>
                by_cases haf : inAngleFam m1 = true
                · have haf2 : inAngleFam m2 = true := h3 ▸ haf
                  simp [sensitivity_map, sens_raw, sens_prep, stcData, hcht, h1, h2, hsurf,
                    hfix, heeg, haf, haf2]
                · have haf2 : ¬(inAngleFam m2 = true) := h3 ▸ haf
                  simp only [sensitivity_map, sens_raw, sens_prep, stcData, hcht, h1, h2,
                    hsurf, hfix, heeg, haf, haf2, Bool.not_eq_true] at *
                  simp [sensitivity_map, sens_raw, sens_prep, stcData, hcht, h1, h2, hsurf,
                    hfix, heeg, haf, haf2, h4, h5, List.map_map]
                  exact fun k _ => hloc _ _ _ k
            | some ps =>
                have h3' : inAngleFam m1 = false ↔ inAngleFam m2 = false := by rw [h3]
                by_cases haf : inAngleFam m1 = false
                · have haf2 : inAngleFam m2 = false := h3'.mp haf
                  simp [sensitivity_map, sens_raw, sens_prep, stcData, hcht, h1, h2, hsurf,
                    hfix, heeg, haf, haf2, h4, h5, List.map_map]
                  exact fun k _ => hloc _ _ _ k
                · have haf2 : ¬(inAngleFam m2 = false) := fun hc => haf (h3'.mpr hc)
                  simp [sensitivity_map, sens_raw, sens_prep, stcData, hcht, h1, h2, hsurf,
                    hfix, heeg, haf, haf2, h4, h5, List.map_map]
                  exact fun k _ => hloc _ _ _ k

/-- C3: for every forward model, projection list and sensor type, the
`radiality` map is pointwise `1 −` the `ratio` map and the `dampening` map is
pointwise `1 −` the `remaining` map, exactly over the embedded arithmetic
(elementwise over the per-location value lists). -/
theorem mode_complement_identities (C : Collab) (fwd : Forward)
    (projs : Option (List Projection)) (cht : String) (ex : List String) :
    stcData (sensitivity_map C fwd projs cht "radiality" ex) =
        (stcData (sensitivity_map C fwd projs cht "ratio" ex)).map (fun x => 1 - x) ∧
      stcData (sensitivity_map C fwd projs cht "dampening" ex) =
        (stcData (sensitivity_map C fwd projs cht "remaining" ex)).map (fun x => 1 - x) :=
  ⟨stcData_complement C fwd projs cht ex "radiality" "ratio" rfl rfl rfl rfl rfl
      (fun gain proj U k => locVal_radiality_ratio gain proj U k),
    stcData_complement C fwd projs cht ex "dampening" "remaining" rfl rfl rfl rfl rfl
      (fun gain proj U k => locVal_dampening_remaining gain proj U k)⟩

/-! ### Normalization of the fixed/free maps (C4) -/

/-- A `foldl max` run is bounded below by its initial value. -/
theorem foldl_max_init_le (l : List ℝ) (a : ℝ) : a ≤ l.foldl max a := by
  induction l generalizing a with
  | nil => exact le_rfl
  | cons b xs ih => exact le_trans (le_max_left a b) (ih (max a b))

/-- Every member of a list is bounded by any `foldl max` run over it. -/
theorem mem_le_foldl_max (l : List ℝ) (a x : ℝ) (hx : x ∈ l) : x ≤ l.foldl max a := by
  induction l generalizing a with
  | nil => cases hx
  | cons b xs ih =>
      rcases List.mem_cons.mp hx with h | h
      · subst h
        exact le_trans (le_max_right a x) (foldl_max_init_le xs (max a x))
      · exact ih (max a b) h

/-- Every member of a list is bounded by the list maximum. -/
theorem le_listMax0 (l : List ℝ) (x : ℝ) (hx : x ∈ l) : x ≤ listMax0 l := by
  cases l with
  | nil => cases hx
  | cons b xs =>
      rcases List.mem_cons.mp hx with h | h
      · subst h
        exact foldl_max_init_le xs x
      · exact mem_le_foldl_max xs b x h

/-- Dividing by a nonnegative constant commutes with `foldl max`. -/
theorem foldl_max_map_div (l : List ℝ) (a M : ℝ) (hM : 0 ≤ M) :
    (l.map (fun x => x / M)).foldl max (a / M) = l.foldl max a / M := by
  induction l generalizing a with
  | nil => rfl
  | cons b xs ih =>
      simp only [List.map_cons, List.foldl_cons, max_div_div_right hM]
      exact ih (max a b)

/-- Dividing by a nonnegative constant commutes with the list maximum. -/
theorem listMax0_map_div (l : List ℝ) (M : ℝ) (hM : 0 ≤ M) :
    listMax0 (l.map (fun x => x / M)) = listMax0 l / M := by
  cases l with
  | nil => simp [listMax0]
  | cons b xs => exact foldl_max_map_div xs b M hM

/-- The `fixed` and `free` metrics are nonnegative (a Euclidean norm and an
operator norm respectively). -/
theorem locVal_fixed_free_nonneg (m : String) (hm : m = "fixed" ∨ m = "free")
    (gain proj U : List (List ℝ)) (k : Nat) : 0 ≤ locVal m gain proj U k := by
  rcases hm with h | h <;> subst h
  · have he : locVal "fixed" gain proj U k = vnorm (colL gain (3 * k + 2)) := rfl
    rw [he]
    exact Real.sqrt_nonneg _
  · have he : locVal "free" gain proj U k = sval0 gain k := rfl
    rw [he]
    exact norm_nonneg _

/-- Modes outside `fixed`/`free` skip the rescaling step: the returned data
is exactly the raw per-location metric list. -/
theorem stcData_no_rescale (C : Collab) (fwd : Forward)
    (projs : Option (List Projection)) (cht : String) (ex : List String)
    (mode : String) (h : (mode == "fixed" || mode == "free") = false) :
    stcData (sensitivity_map C fwd projs cht mode ex) =
      rawOf (sens_raw C fwd projs cht mode ex) := by
  unfold sensitivity_map
  cases hsr : sens_raw C fwd projs cht mode ex with
  | error e => rfl
  | ok t =>
      obtain ⟨f2, raw⟩ := t
      simp [stcData, rawOf, h]

/-- C4 (amended): for a successful `fixed`/`free` call whose raw map has a
positive maximum, the returned map is the raw map divided by its maximum, so
its maximum is `1` and every value lies in `[0, 1]`; for the other five
modes no rescaling is applied.  (When the raw maximum is not positive — an
identically-zero gain — the division does not produce a maximum of `1`; see
the counterexample.) -/
theorem normalization_fixed_free (C : Collab) (fwd : Forward)
    (projs : Option (List Projection)) (cht : String) (ex : List String)
    (m1 m2 : String)
    (hm1 : m1 = "fixed" ∨ m1 = "free")
    (hm2 : m2 = "ratio" ∨ m2 = "radiality" ∨ m2 = "angle" ∨ m2 = "remaining" ∨
      m2 = "dampening")
    (hok : (sensitivity_map C fwd projs cht m1 ex).isOk = true)
    (hpos : 0 < listMax0 (rawOf (sens_raw C fwd projs cht m1 ex))) :
    (stcData (sensitivity_map C fwd projs cht m1 ex) =
        (rawOf (sens_raw C fwd projs cht m1 ex)).map
          (fun x => x / listMax0 (rawOf (sens_raw C fwd projs cht m1 ex))) ∧
      listMax0 (stcData (sensitivity_map C fwd projs cht m1 ex)) = 1 ∧
      ∀ x ∈ stcData (sensitivity_map C fwd projs cht m1 ex), 0 ≤ x ∧ x ≤ 1) ∧
      stcData (sensitivity_map C fwd projs cht m2 ex) =
        rawOf (sens_raw C fwd projs cht m2 ex) := by
  have hff : (m1 == "fixed" || m1 == "free") = true := by
    rcases hm1 with h | h <;> subst h <;> rfl
  have hb : stcData (sensitivity_map C fwd projs cht m2 ex) =
      rawOf (sens_raw C fwd projs cht m2 ex) :=
    stcData_no_rescale C fwd projs cht ex m2
      (by rcases hm2 with h | h | h | h | h <;> subst h <;> rfl)
  refine ⟨?_, hb⟩
  cases hsp : sens_prep C fwd projs cht m1 ex with
  | error e =>
      exfalso
      have : sensitivity_map C fwd projs cht m1 ex = Except.error e := by
        unfold sensitivity_map sens_raw
        rw [hsp]
      rw [this] at hok
      simp [Except.isOk, Except.toBool] at hok
  | ok t =>
      obtain ⟨f2, gain, proj, U⟩ := t
      have hsr : sens_raw C fwd projs cht m1 ex =
          Except.ok (f2, (List.range ((gain.headD []).length / 3)).map
            (locVal m1 gain proj U)) := by
        unfold sens_raw
        rw [hsp]
      have hnn : ∀ y ∈ (List.range ((gain.headD []).length / 3)).map
          (locVal m1 gain proj U), 0 ≤ y := by
        intro y hy
        rcases List.mem_map.mp hy with ⟨k, _, hk⟩
        exact hk ▸ locVal_fixed_free_nonneg m1 hm1 gain proj U k
      rcases hraw : (List.range ((gain.headD []).length / 3)).map (locVal m1 gain proj U)
        with _ | ⟨x, xs⟩
      · exfalso
        have : sensitivity_map C fwd projs cht m1 ex =
            Except.error "zero-size array to reduction operation maximum" := by
          unfold sensitivity_map
          rw [hsr, hraw]
          simp [hff]
        rw [this] at hok
        simp [Except.isOk, Except.toBool] at hok
      · have hdata : stcData (sensitivity_map C fwd projs cht m1 ex) =
            (x :: xs).map (fun v => v / listMax0 (x :: xs)) := by
          unfold sensitivity_map
          rw [hsr, hraw]
          simp [stcData, hff]
        have hrawOf : rawOf (sens_raw C fwd projs cht m1 ex) = x :: xs := by
          rw [hsr, hraw]
          rfl
        rw [hrawOf] at hpos
        have hM : (0 : ℝ) ≤ listMax0 (x :: xs) := le_of_lt hpos
        have hmax : listMax0 (stcData (sensitivity_map C fwd projs cht m1 ex)) = 1 := by
          rw [hdata, listMax0_map_div _ _ hM, div_self (ne_of_gt hpos)]
        refine ⟨by rw [hdata, hrawOf], hmax, ?_⟩
        intro v hv
        rw [hdata] at hv
        rcases List.mem_map.mp hv with ⟨y, hy, hyv⟩
        have hy0 : 0 ≤ y := hnn y (hraw ▸ hy)
        have hyM : y ≤ listMax0 (x :: xs) := le_listMax0 _ y hy
        constructor
        · rw [← hyv]
          exact div_nonneg hy0 hM
        · rw [← hyv]
          exact (div_le_one hpos).mpr hyM

/-- A surface-oriented, free-orientation forward model whose single gain
block is identically zero. -/
noncomputable def fwdZero : Forward :=
  { surf_ori := true, fixed_ori := false
    sol_data := [[0, 0, 0]]
    sol_row_names := ["MEG 001"]
    info := { ch_names := ["MEG 001"], bads := [] }
    src0_vertno := [0], src1_vertno := [] }

/-- C4 counterexample: a `fixed` call on an identically-zero gain succeeds,
but its returned maximum is `0/0`, not `1` (NaN in the Python program). -/
theorem normalization_zero_counterexample :
    (sensitivity_map collab0 fwdZero none "grad" "fixed" []).isOk = true ∧
      listMax0 (stcData (sensitivity_map collab0 fwdZero none "grad" "fixed" [])) ≠ 1 := by
  constructor
  · rfl
  · have hd : stcData (sensitivity_map collab0 fwdZero none "grad" "fixed" []) =
        [vnorm (colL ([[0, 0, 0]] : List (List ℝ)) 2) /
          listMax0 [vnorm (colL ([[0, 0, 0]] : List (List ℝ)) 2)]] := rfl
    have hv : vnorm (colL ([[0, 0, 0]] : List (List ℝ)) 2) = 0 := by
      unfold vnorm
      rw [show sumSq (colL ([[0, 0, 0]] : List (List ℝ)) 2) = 0 from by
        norm_num [sumSq, colL]]
      exact Real.sqrt_zero
    rw [hd, hv]
    norm_num [listMax0]

/-- Witness for the amended C4 at the concrete forward model `fwd0` (one
location, normal-component column `(3, 4)`), modes `fixed` and `ratio`. -/
theorem normalization_fixed_free_witness :
    (("fixed" = "fixed" ∨ "fixed" = "free") ∧
        ("ratio" = "ratio" ∨ "ratio" = "radiality" ∨ "ratio" = "angle" ∨
          "ratio" = "remaining" ∨ "ratio" = "dampening") ∧
        (sensitivity_map collab0 fwd0 none "grad" "fixed" []).isOk = true ∧
        0 < listMax0 (rawOf (sens_raw collab0 fwd0 none "grad" "fixed" []))) ∧
      ((stcData (sensitivity_map collab0 fwd0 none "grad" "fixed" []) =
          (rawOf (sens_raw collab0 fwd0 none "grad" "fixed" [])).map
            (fun x => x / listMax0 (rawOf (sens_raw collab0 fwd0 none "grad" "fixed" [])))
        ∧ listMax0 (stcData (sensitivity_map collab0 fwd0 none "grad" "fixed" [])) = 1 ∧
        ∀ x ∈ stcData (sensitivity_map collab0 fwd0 none "grad" "fixed" []), 0 ≤ x ∧ x ≤ 1)
        ∧ stcData (sensitivity_map collab0 fwd0 none "grad" "ratio" []) =
          rawOf (sens_raw collab0 fwd0 none "grad" "ratio" [])) :=
  have hpos : 0 < listMax0 (rawOf (sens_raw collab0 fwd0 none "grad" "fixed" [])) := by
    rw [show listMax0 (rawOf (sens_raw collab0 fwd0 none "grad" "fixed" [])) =
        vnorm (colL ([[0, 0, 3], [0, 0, 4]] : List (List ℝ)) 2) from rfl]
    unfold vnorm
    exact Real.sqrt_pos.mpr (by norm_num [sumSq, colL])
  ⟨⟨Or.inl rfl, Or.inl rfl, rfl, hpos⟩,
    normalization_fixed_free collab0 fwd0 none "grad" [] "fixed" "ratio"
      (Or.inl rfl) (Or.inl rfl) rfl hpos⟩

end Mne
